import Mathlib

/-!
# Verification of the IP-Country build pipeline

A shallow embedding of the record ingestion, normalization, sorting and
partitioning logic of `build.py` (IP-block pipeline) and `build-asn.py`
(ASN pipeline), together with theorems settling the specification claims.

Python strings are modelled as Lean `String` (a structure over `List Char`);
all low-level string operations used by the scripts (`split`, `strip`,
substring membership, `isdigit`, `int(...)`, `startswith`) are re-implemented
here by structural recursion over the character list so that every definition
evaluates on concrete inputs.
-/

/-! ## Python string primitives -/

/-- `isPrefixList n l` is true when `n` is a prefix of `l` (char lists). -/
def isPrefixList : List Char → List Char → Bool
  | [], _ => true
  | _ :: _, [] => false
  | a :: as, b :: bs => a == b && isPrefixList as bs

/-- `containsSub hay needle`: models Python `needle in hay` on strings
(contiguous substring membership over the character lists). -/
def containsSub : List Char → List Char → Bool
  | [], n => n.isEmpty
  | c :: cs, n => isPrefixList n (c :: cs) || containsSub cs n

/-- Models Python `str.__contains__`: `strContains hay needle` is
`needle in hay`. -/
def strContains (hay needle : String) : Bool :=
  containsSub hay.data needle.data

def pySplitAux (sep : Char) : List Char → List (List Char)
  | [] => [[]]
  | c :: cs =>
    match pySplitAux sep cs with
    | [] => [[]]
    | g :: gs => if c == sep then [] :: g :: gs else (c :: g) :: gs

/-- Models Python `s.split(sep)` for a single-character separator:
`"a||b".split('|') == ['a','','b']`, `"".split('|') == ['']`. -/
def pySplit (s : String) (sep : Char) : List String :=
  (pySplitAux sep s.data).map String.mk

/-- The ASCII whitespace characters stripped by Python `str.strip()`
(further Unicode whitespace stripped by Python is not modelled; the
registry files are ASCII). -/
def isPySpace (c : Char) : Bool :=
  c == ' ' || c == '\t' || c == '\n' || c == '\r' || c == '\x0b' || c == '\x0c'

/-- Models Python `str.strip()`. -/
def pyStrip (s : String) : String :=
  String.mk (((s.data.dropWhile isPySpace).reverse.dropWhile isPySpace).reverse)

/-- Models Python `str.isdigit()` for ASCII input: non-empty and all
characters decimal digits (Python additionally accepts some Unicode
digit characters, which do not occur in the registry files). -/
def pyIsDigit (s : String) : Bool :=
  !s.data.isEmpty && s.data.all Char.isDigit

/-- Numeric value of a list of decimal digit characters. -/
def digitsVal (l : List Char) : Nat :=
  l.foldl (fun n c => n * 10 + (c.toNat - 48)) 0

/-- Models Python `int(s)` for a string of decimal digits: the numeric
value of the digits. (Callers in the scripts guard with `isdigit()` or
accept the `ValueError` raised otherwise; see `pyInt` for the raising
form.) -/
def pyIntOfDigits (s : String) : Nat := digitsVal s.data

/-- Models Python `int(s)` including its failure mode: strips
whitespace, accepts an optional single `+`/`-` sign followed by at least
one decimal digit and returns the signed value, and returns `none` where
Python raises `ValueError`. (Python's underscore digit-grouping, e.g.
`int("1_0")`, is not modelled; such strings do not occur in registry
data.) -/
def pyInt (s : String) : Option Int :=
  let t := (pyStrip s).data
  let (neg, digits) :=
    match t with
    | '-' :: rest => (true, rest)
    | '+' :: rest => (false, rest)
    | l => (false, l)
  if digits.isEmpty || !digits.all Char.isDigit then none
  else if neg then some (-(digitsVal digits : Int))
  else some (digitsVal digits : Int)

/-- Models Python `s.startswith('#')`. -/
def startsWithHash (s : String) : Bool :=
  match s.data with
  | [] => false
  | c :: _ => c == '#'

/-- Python code-point comparison of strings, `a < b` (lexicographic on
the character lists, characters compared by code point). -/
def listCharLt : List Char → List Char → Bool
  | [], [] => false
  | [], _ :: _ => true
  | _ :: _, [] => false
  | a :: as, b :: bs =>
    if a.toNat < b.toNat then true
    else if b.toNat < a.toNat then false
    else listCharLt as bs

/-- Python `a <= b` on strings. -/
def listCharLe : List Char → List Char → Bool
  | [], _ => true
  | _ :: _, [] => false
  | a :: as, b :: bs =>
    if a.toNat < b.toNat then true
    else if b.toNat < a.toNat then false
    else listCharLe as bs

def strLt (a b : String) : Bool := listCharLt a.data b.data

def strLe (a b : String) : Bool := listCharLe a.data b.data

/-! ## Floor logarithm

`math.log2` on a positive float argument; the scripts apply
`int(32 - math.log2(value))`.  `log2Floor` is a fuel-based structurally
recursive floor-log2 so that it evaluates in the kernel; `pyLog2` gives
it `n` as fuel, which always suffices. -/

def log2Floor : Nat → Nat → Nat
  | 0, _ => 0
  | fuel + 1, n => if n < 2 then 0 else log2Floor fuel (n / 2) + 1

/-- Floor of the base-2 logarithm (`pyLog2 0 = 0`, unused there: the
caller treats `value = 0` as the `math.log2` domain error). -/
def pyLog2 (n : Nat) : Nat := log2Floor n n

/-! ## Numeric address parsing (`ipaddress` stdlib module)

`sort_ip_data` in `build.py` computes `int(ipaddress.IPv4Address(ip))`
resp. `int(ipaddress.IPv6Address(ip))`, falling back to `0` on a parse
error.  The two parsers below follow the CPython `ipaddress`
implementation (`_ip_int_from_string` / `_parse_octet` /
`_parse_hextet`): they return the big-endian integer value of a
syntactically valid textual address and `none` where CPython raises
`AddressValueError`. -/

/-- CPython `IPv4Address._parse_octet`: 1–3 ASCII decimal digits, no
leading zero unless the octet is exactly `"0"`, value at most 255. -/
def parseOctet (s : String) : Option Nat :=
  let l := s.data
  if l.isEmpty || l.length > 3 then none
  else if !l.all Char.isDigit then none
  else if l.length > 1 && l.headD '0' == '0' then none
  else if digitsVal l > 255 then none
  else some (digitsVal l)

/-- CPython `IPv4Address._ip_int_from_string`: exactly four
dot-separated octets, big-endian 32-bit integer value. -/
def parseIPv4 (s : String) : Option Nat :=
  match pySplit s '.' with
  | [a, b, c, d] => do
    let a ← parseOctet a
    let b ← parseOctet b
    let c ← parseOctet c
    let d ← parseOctet d
    pure (((a * 256 + b) * 256 + c) * 256 + d)
  | _ => none

/-- CPython `IPv6Address._parse_hextet`: 1–4 hex digits. -/
def parseHextet (s : String) : Option Nat :=
  let l := s.data
  if l.isEmpty || l.length > 4 then none
  else if !l.all (fun c => c.isDigit || ('a' ≤ c && c ≤ 'f') || ('A' ≤ c && c ≤ 'F')) then none
  else some (l.foldl (fun n c =>
    n * 16 + (if c.isDigit then c.toNat - 48
              else if 'a' ≤ c then c.toNat - 87 else c.toNat - 55)) 0)

/-- Lower-case hexadecimal rendering (CPython `'%x' % n`), used when an
embedded dotted-quad suffix is rewritten into two hextets. -/
def natHexStr (n : Nat) : String :=
  String.mk (Nat.toDigits 16 n)

/-- Fold a list of hextet strings into an accumulator, 16 bits per
hextet; `none` if any hextet is invalid. -/
def foldHextets (acc : Nat) : List String → Option Nat
  | [] => some acc
  | h :: t => do foldHextets (acc * 65536 + (← parseHextet h)) t

/-- CPython `IPv6Address._ip_int_from_string`: colon-separated hextets,
at most one `::` compression, optional embedded dotted-quad suffix. -/
def parseIPv6 (s : String) : Option Nat :=
  let parts := pySplit s ':'
  if parts.length < 3 then none
  else
    -- an embedded IPv4 suffix is replaced by two hextet strings
    let parts :=
      if (parts.getLastD "").data.contains '.' then
        match parseIPv4 (parts.getLastD "") with
        | some v => parts.dropLast ++ [natHexStr (v / 65536), natHexStr (v % 65536)]
        | none => [""]  -- poison: yields a parse failure below
      else parts
    if parts.length > 9 then none
    else
      -- at most one empty group strictly inside the list (the `::`)
      let inner := (parts.drop 1).dropLast
      let skips := (List.range inner.length).filter (fun i => inner.getD i " " == "")
      match skips with
      | _ :: _ :: _ => none
      | [i] =>
        let skipIndex := i + 1
        let partsHi := skipIndex
        let partsLo := parts.length - skipIndex - 1
        let partsHi := if parts.headD " " == "" then partsHi - 1 else partsHi
        if parts.headD " " == "" && partsHi ≠ 0 then none
        else
          let partsLo := if parts.getLastD " " == "" then partsLo - 1 else partsLo
          if parts.getLastD " " == "" && partsLo ≠ 0 then none
          else if 8 - (partsHi + partsLo) < 1 then none
          else do
            let hi ← foldHextets 0 (parts.take partsHi)
            foldHextets (hi * 2 ^ (16 * (8 - partsHi - partsLo)))
              (parts.drop (parts.length - partsLo))
      | [] =>
        if parts.length ≠ 8 then none
        else if parts.headD " " == "" || parts.getLastD " " == "" then none
        else foldHextets 0 parts

/-! ## IP-block pipeline (`build.py`) -/

/-- `IPPackage` from `build.py`: the canonical IP-block record.  All
four fields are Python strings; `prefix_length` is stored already
rendered to decimal text (`str(int(...))` for IPv4, the raw `value`
field for IPv6).  Note the class has no registry field: the parsed
`registry = parts[0]` is discarded by `process_region_data`. -/
structure IPPackage where
  country : String
  ip : String
  prefix_length : String
  version : String
deriving DecidableEq, Repr

/-- `int(32 - math.log2(value))` from `process_region_data`.
`math.log2(0)` raises `ValueError` (modelled as `.error ()`); otherwise
the real-valued result is truncated toward zero by `int(...)`:
* `value = 2^k`: exactly `32 - k` (`math.log2` is exact on powers of two);
* non-power `value < 2^32`: the result lies in `(0, 32)`, so truncation
  is the floor, `32 - floorLog2 value - 1`;
* non-power `value > 2^32`: the result is negative, so truncation toward
  zero gives `32 - floorLog2 value`.
(Floating-point rounding of `math.log2` on inputs within one ulp of a
power of two is not modelled.) -/
def ipv4PrefixLength (value : Nat) : Except Unit Int :=
  if value = 0 then .error ()
  else if 2 ^ pyLog2 value = value then .ok (32 - (pyLog2 value : Int))
  else if value < 2 ^ 32 then .ok (32 - (pyLog2 value : Int) - 1)
  else .ok (32 - (pyLog2 value : Int))

/-- One iteration of the line loop of `process_region_data`
(`build.py` lines 66–82): the gate is a *substring* test for
`'allocated'`/`'assigned'` anywhere in the raw line, then a
split on `'|'` of the stripped line, a minimum of 5 fields, and the
`type`/`value.isdigit()` gate.  Returns `.error ()` when the iteration
raises (`math.log2(0)`), `.ok none` when the line contributes no
record, `.ok (some pkg)` otherwise. -/
def ipProcessLine (line : String) : Except Unit (Option IPPackage) :=
  if strContains line "allocated" || strContains line "assigned" then
    let parts := pySplit (pyStrip line) '|'
    if parts.length ≥ 5 then
      let country := parts.getD 1 ""
      let ipType := parts.getD 2 ""
      let ipAddress := parts.getD 3 ""
      let value := parts.getD 4 ""
      if ipType == "ipv4" && pyIsDigit value then
        match ipv4PrefixLength (pyIntOfDigits value) with
        | .error e => .error e
        | .ok p => .ok (some ⟨country, ipAddress, toString p, ipType⟩)
      else if ipType == "ipv6" && pyIsDigit value then
        .ok (some ⟨country, ipAddress, value, ipType⟩)
      else .ok none
    else .ok none
  else .ok none

/-- `process_region_data` over the lines of one source file: records
are appended in line order; an exception raised on any line aborts the
whole source (`.error ()`), as the Python loop has no handler. -/
def ipProcessLines : List String → Except Unit (List IPPackage)
  | [] => .ok []
  | l :: ls =>
    match ipProcessLine l with
    | .error e => .error e
    | .ok none => ipProcessLines ls
    | .ok (some p) =>
      match ipProcessLines ls with
      | .error e => .error e
      | .ok ps => .ok (p :: ps)

/-- The numeric component of `ip_sort_key`: parse the address for the
record's family, falling back to `0` when parsing raises
(`try/except` in `sort_ip_data`). -/
def ipSortKeyNat (p : IPPackage) : Nat :=
  if p.version == "ipv4" then (parseIPv4 p.ip).getD 0
  else (parseIPv6 p.ip).getD 0

/-- `ip_sort_key`: the Python tuple
`(package.country, package.version, ip_int)`. -/
def ipSortKey (p : IPPackage) : String × String × Nat :=
  (p.country, p.version, ipSortKeyNat p)

/-- Lexicographic `<=` on a pair whose first component is a string
(Python tuple comparison: first differing component decides). -/
def strLexLE (q : β → β → Bool) (a b : String × β) : Bool :=
  strLt a.1 b.1 || (a.1 == b.1 && q a.2 b.2)

/-- Python tuple `<=` on sort keys: lexicographic, strings by code
point, the numeric component by `Nat` order. -/
def ipKeyLE (a b : String × String × Nat) : Bool :=
  strLexLE (strLexLE (fun m n => m ≤ n)) a b

/-- `sort_ip_data`: Python's stable `sorted` with key `ip_sort_key`. -/
def sortIpData (l : List IPPackage) : List IPPackage :=
  l.mergeSort (fun a b => ipKeyLE (ipSortKey a) (ipSortKey b))

/-! ### `build.py` partitioning and export views -/

/-- The keys of a Python `dict`/`defaultdict` built by iterating a list
and appending to per-key buckets: the keys in insertion order, i.e. in
order of first occurrence. -/
def dictKeys (f : α → String) (l : List α) : List String :=
  l.foldl (fun acc x => if acc.contains (f x) then acc else acc ++ [f x]) []

/-- `export_countries_list`: `sorted(list(set(pkg.country for pkg in
sorted_data)))` — the distinct country codes, sorted by code point,
with **no** exclusion of `''` or `'*'`. -/
def exportCountriesList (sorted_data : List IPPackage) : List String :=
  ((sorted_data.map (·.country)).dedup).mergeSort strLe

/-- `export_version_specific_data`: the per-family view, a filter of
the sorted sequence. -/
def ipFamilyView (sorted_data : List IPPackage) (version : String) : List IPPackage :=
  sorted_data.filter (fun p => p.version == version)

/-- The `(country, version)` bucket built by `export_country_data`:
`country_data[pkg.country][pkg.version]`, in sorted-sequence order. -/
def ipCountryView (sorted_data : List IPPackage) (country version : String) : List IPPackage :=
  sorted_data.filter (fun p => p.country == country && p.version == version)

/-- The set of per-country artifacts `export_country_data` writes: one
per `(country, version)` pair with a non-empty bucket.  `build.py`
applies **no** wildcard/empty-country exclusion here. -/
def ipCountryArtifacts (sorted_data : List IPPackage) : List (String × String) :=
  (dictKeys (·.country) sorted_data).flatMap (fun c =>
    (["ipv4", "ipv6"].filter (fun v => !(ipCountryView sorted_data c v).isEmpty)).map
      (fun v => (c, v)))

/-- Outcome of a run: aborted with a message before writing outputs, or
completed with the outputs it wrote. -/
inductive RunOutcome (σ : Type) where
  | aborted (msg : String)
  | completed (outputs : σ)
deriving DecidableEq, Repr

/-- The artifacts `build.py`'s `main` writes after the download and
processing phase (file encodings collapsed to their common content). -/
structure IpOutputs where
  countriesArtifact : List String
  globalArtifact : List IPPackage
  ipv4Artifact : List IPPackage
  ipv6Artifact : List IPPackage
  countryArtifacts : List (String × String)
deriving DecidableEq, Repr

/-- The export phase of `build.py`'s `main` on the combined record set:
it sorts and always exports — there is no emptiness check and no abort
path. -/
def ipMain (all_ip_data : List IPPackage) : RunOutcome IpOutputs :=
  let sorted_data := sortIpData all_ip_data
  .completed
    { countriesArtifact := exportCountriesList sorted_data
      globalArtifact := sorted_data
      ipv4Artifact := ipFamilyView sorted_data "ipv4"
      ipv6Artifact := ipFamilyView sorted_data "ipv6"
      countryArtifacts := ipCountryArtifacts sorted_data }

/-! ## ASN pipeline (`build-asn.py`) -/

/-- `ASNEntry` from `build-asn.py`: carries the registry tag, unlike
`IPPackage`. -/
structure ASNEntry where
  registry : String
  country : String
  asn : String
  value : String
  date : String
  status : String
deriving DecidableEq, Repr

/-- One iteration of the line loop of `process_asn_data`
(`build-asn.py` lines 54–67): skip empty lines and lines starting with
`'#'`; split the stripped line on `'|'`; require at least 7 fields,
`parts[2] == 'asn'` and `status ∈ {allocated, assigned}`.  Parsing
never raises. -/
def asnProcessLine (line : String) : Option ASNEntry :=
  if !(line == "") && !startsWithHash line then
    let parts := pySplit (pyStrip line) '|'
    if parts.length ≥ 7 && parts.getD 2 "" == "asn" then
      let status := parts.getD 6 ""
      if parts.getD 2 "" == "asn" && (status == "allocated" || status == "assigned") then
        some ⟨parts.getD 0 "", parts.getD 1 "", parts.getD 3 "",
              parts.getD 4 "", parts.getD 5 "", status⟩
      else none
    else none
  else none

/-- `process_asn_data` on a source blob: `data.split('\n')`, each line
through the loop body, records appended in order. -/
def asnProcessData (data : String) : List ASNEntry :=
  (pySplit data '\n').filterMap asnProcessLine

/-- The sort key `int(x.asn)` used by every ASN export, with Python's
`ValueError` fallback made explicit: `none` when the field is not a
valid integer literal. -/
def asnKeyInt (e : ASNEntry) : Option Int := pyInt e.asn

/-- The numeric key actually compared, defaulting `0` (only ever used
under the guard that all keys parse). -/
def asnKeyVal (e : ASNEntry) : Int := (asnKeyInt e).getD 0

/-- `sorted(all_asn_data, key=lambda x: int(x.asn))`: `sorted` computes
the key of every element; if any `int(...)` raises, the whole export
raises (`.error ()`); otherwise a stable sort on the numeric key. -/
def sortAsnData (l : List ASNEntry) : Except Unit (List ASNEntry) :=
  if l.all (fun e => (asnKeyInt e).isSome) then
    .ok (l.mergeSort (fun a b => asnKeyVal a ≤ asnKeyVal b))
  else .error ()

/-- The country keys for which `export_by_country` writes artifacts:
dict insertion order, with empty and `'*'` countries skipped
(`if country and country != '*'`). -/
def asnCountryKeys (l : List ASNEntry) : List String :=
  (dictKeys (·.country) l).filter (fun c => !(c == "") && !(c == "*"))

/-- The records exported for one country by `export_by_country`
(grouping preserves input order; each group is then sorted by ASN). -/
def asnCountryView (l : List ASNEntry) (c : String) : Except Unit (List ASNEntry) :=
  sortAsnData (l.filter (fun e => e.country == c))

/-- The registry keys of `export_by_registry`: dict insertion order,
**no** exclusions. -/
def asnRegistryKeys (l : List ASNEntry) : List String :=
  dictKeys (·.registry) l

/-- The records exported for one registry by `export_by_registry`. -/
def asnRegistryView (l : List ASNEntry) (r : String) : Except Unit (List ASNEntry) :=
  sortAsnData (l.filter (fun e => e.registry == r))

/-- The artifacts `build-asn.py`'s `main` writes after the combined
list is assembled. -/
structure AsnOutputs where
  globalArtifact : Except Unit (List ASNEntry)
  countryKeys : List String
  registryKeys : List String
deriving Repr

/-- The decision phase of `build-asn.py`'s `main`: an empty combined
record set aborts with a user-visible message before any export; a
non-empty set proceeds to the exports. -/
def asnMain (all_asn_data : List ASNEntry) : RunOutcome AsnOutputs :=
  if all_asn_data.isEmpty then
    .aborted "No ASN data collected. Exiting."
  else
    .completed
      { globalArtifact := sortAsnData all_asn_data
        countryKeys := asnCountryKeys all_asn_data
        registryKeys := asnRegistryKeys all_asn_data }

/-! ## Order lemmas for the comparators -/

theorem charToNat_inj {a b : Char} (h : a.toNat = b.toNat) : a = b :=
  Char.ext (UInt32.ext h)

theorem listCharLt_trans :
    ∀ {a b c : List Char}, listCharLt a b = true → listCharLt b c = true →
      listCharLt a c = true
  | [], [], _ :: _, hab, _ => by simp [listCharLt] at hab
  | [], _ :: _, _ :: _, _, _ => rfl
  | _ :: _, [], _, hab, _ => by simp [listCharLt] at hab
  | _ :: _, _ :: _, [], _, hbc => by simp [listCharLt] at hbc
  | a :: as, b :: bs, c :: cs, hab, hbc => by
    simp only [listCharLt] at *
    rcases Nat.lt_trichotomy a.toNat b.toNat with h1 | h1 | h1 <;>
      rcases Nat.lt_trichotomy b.toNat c.toNat with h2 | h2 | h2 <;>
      simp_all [Nat.lt_irrefl] <;>
      first
        | omega
        | (exact listCharLt_trans hab hbc)

theorem listCharLt_trichot :
    ∀ a b : List Char, listCharLt a b = true ∨ listCharLt b a = true ∨ a = b
  | [], [] => .inr (.inr rfl)
  | [], _ :: _ => .inl rfl
  | _ :: _, [] => .inr (.inl rfl)
  | a :: as, b :: bs => by
    rcases Nat.lt_trichotomy a.toNat b.toNat with h | h | h
    · exact .inl (by simp [listCharLt, h])
    · rcases listCharLt_trichot as bs with h' | h' | h'
      · exact .inl (by simp [listCharLt, h, Nat.lt_irrefl, h'])
      · exact .inr (.inl (by simp [listCharLt, h.symm, Nat.lt_irrefl, h']))
      · exact .inr (.inr (by rw [charToNat_inj h, h']))
    · exact .inr (.inl (by simp [listCharLt, h]))

theorem strLt_trans {a b c : String} (h1 : strLt a b = true) (h2 : strLt b c = true) :
    strLt a c = true :=
  listCharLt_trans h1 h2

theorem str_eq_of_data_eq {a b : String} (h : a.data = b.data) : a = b :=
  congrArg String.mk h

theorem strLt_trichot (a b : String) : strLt a b = true ∨ strLt b a = true ∨ a = b := by
  rcases listCharLt_trichot a.data b.data with h | h | h
  · exact .inl h
  · exact .inr (.inl h)
  · exact .inr (.inr (str_eq_of_data_eq h))

theorem strLt_irrefl (a : String) : strLt a a = false := by
  rcases a with ⟨d⟩
  show listCharLt d d = false
  induction d with
  | nil => rfl
  | cons x xs ih => simpa [listCharLt, Nat.lt_irrefl] using ih

theorem strLexLE_total (q : β → β → Bool) (hq : ∀ x y, q x y = true ∨ q y x = true) :
    ∀ a b : String × β, strLexLE q a b = true ∨ strLexLE q b a = true := by
  rintro ⟨s, x⟩ ⟨t, y⟩
  rcases strLt_trichot s t with h | h | h
  · exact .inl (by simp [strLexLE, h])
  · exact .inr (by simp [strLexLE, h])
  · subst h
    rcases hq x y with h' | h'
    · exact .inl (by simp [strLexLE, h'])
    · exact .inr (by simp [strLexLE, h'])

theorem strLexLE_trans (q : β → β → Bool)
    (hq : ∀ x y z : β, q x y = true → q y z = true → q x z = true)
    {a b c : String × β} (hab : strLexLE q a b = true) (hbc : strLexLE q b c = true) :
    strLexLE q a c = true := by
  simp only [strLexLE, Bool.or_eq_true, Bool.and_eq_true, beq_iff_eq] at *
  rcases hab with hab | ⟨hab1, hab2⟩ <;> rcases hbc with hbc | ⟨hbc1, hbc2⟩
  · exact .inl (strLt_trans hab hbc)
  · exact .inl (hbc1 ▸ hab)
  · exact .inl (hab1 ▸ hbc)
  · exact .inr ⟨hab1.trans hbc1, hq _ _ _ hab2 hbc2⟩

theorem ipKeyLE_total (a b : String × String × Nat) :
    ipKeyLE a b = true ∨ ipKeyLE b a = true :=
  strLexLE_total _
    (fun x y => strLexLE_total _ (fun m n => by
      rcases Nat.le_total m n with h | h
      · exact .inl (by simpa using h)
      · exact .inr (by simpa using h)) x y) a b

theorem ipKeyLE_trans {a b c : String × String × Nat}
    (hab : ipKeyLE a b = true) (hbc : ipKeyLE b c = true) : ipKeyLE a c = true := by
  unfold ipKeyLE at hab hbc ⊢
  refine strLexLE_trans (strLexLE (fun m n => decide (m ≤ n)))
    (fun x y z h1 h2 =>
      strLexLE_trans (fun m n => decide (m ≤ n)) (fun m n p h3 h4 => ?_) h1 h2)
    hab hbc
  simp only [decide_eq_true_eq] at h3 h4 ⊢
  omega

theorem listCharLe_total : ∀ a b : List Char, listCharLe a b = true ∨ listCharLe b a = true
  | [], _ => .inl rfl
  | _ :: _, [] => .inr rfl
  | a :: as, b :: bs => by
    rcases Nat.lt_trichotomy a.toNat b.toNat with h | h | h
    · exact .inl (by simp [listCharLe, h])
    · rcases listCharLe_total as bs with h' | h'
      · exact .inl (by simp [listCharLe, h, Nat.lt_irrefl, h'])
      · exact .inr (by simp [listCharLe, h.symm, Nat.lt_irrefl, h'])
    · exact .inr (by simp [listCharLe, h])

theorem listCharLe_trans :
    ∀ {a b c : List Char}, listCharLe a b = true → listCharLe b c = true →
      listCharLe a c = true
  | [], _, _, _, _ => rfl
  | _ :: _, [], _, hab, _ => by simp [listCharLe] at hab
  | _ :: _, _ :: _, [], _, hbc => by simp [listCharLe] at hbc
  | a :: as, b :: bs, c :: cs, hab, hbc => by
    simp only [listCharLe] at *
    rcases Nat.lt_trichotomy a.toNat b.toNat with h1 | h1 | h1 <;>
      rcases Nat.lt_trichotomy b.toNat c.toNat with h2 | h2 | h2 <;>
      simp_all [Nat.lt_irrefl] <;>
      first
        | omega
        | (exact listCharLe_trans hab hbc)

theorem strLe_total (a b : String) : strLe a b = true ∨ strLe b a = true :=
  listCharLe_total a.data b.data

theorem strLe_trans {a b c : String} (h1 : strLe a b = true) (h2 : strLe b c = true) :
    strLe a c = true :=
  listCharLe_trans h1 h2

/-! ## Supporting lemmas -/

deriving instance DecidableEq for Except

theorem log2Floor_eq (fuel n : Nat) (h : n ≤ fuel) : log2Floor fuel n = Nat.log2 n := by
  induction fuel generalizing n with
  | zero => interval_cases n; simp [log2Floor, Nat.log2]
  | succ f ih =>
    rw [log2Floor, Nat.log2]
    by_cases h2 : n < 2
    · simp [h2, Nat.not_le.mpr h2]
    · have hle : 2 ≤ n := Nat.not_lt.mp h2
      have hd : n / 2 ≤ f := by omega
      simp [h2, hle, ih _ hd]

theorem pyLog2_pow (k : Nat) : pyLog2 (2 ^ k) = k := by
  rw [pyLog2, log2Floor_eq _ _ (le_refl _)]
  simp [Nat.log2_eq_log_two, Nat.log_pow]

theorem ipv4PrefixLength_pow (k : Nat) : ipv4PrefixLength (2 ^ k) = .ok (32 - (k : Int)) := by
  unfold ipv4PrefixLength
  rw [pyLog2_pow]
  simp [(Nat.two_pow_pos k).ne']

theorem intToString_ofNat (n : Nat) : toString ((n : Int)) = toString n := rfl

/-- Every computed IPv4 prefix length is at most 32 (it can be
negative: `value > 2^32` yields a negative length, which the code
happily stores). -/
theorem ipv4PrefixLength_le (v : Nat) (p : Int) (h : ipv4PrefixLength v = .ok p) :
    p ≤ 32 := by
  unfold ipv4PrefixLength at h
  split at h
  · exact absurd h (by simp)
  · split at h
    · injection h with h; omega
    · split at h <;> (injection h with h; omega)

theorem dictKeys_go_mem (f : α → String) (l : List α) :
    ∀ (acc : List String) (c : String),
      (c ∈ l.foldl (fun acc x => if acc.contains (f x) then acc else acc ++ [f x]) acc ↔
        c ∈ acc ∨ c ∈ l.map f) := by
  induction l with
  | nil => intro acc c; simp
  | cons x xs ih =>
    intro acc c
    simp only [List.foldl_cons, List.map_cons, List.mem_cons]
    by_cases hx : acc.contains (f x)
    · rw [if_pos hx, ih]
      have hmem : f x ∈ acc := by simpa using hx
      constructor
      · rintro (h | h)
        · exact .inl h
        · exact .inr (.inr h)
      · rintro (h | h | h)
        · exact .inl h
        · exact .inl (h ▸ hmem)
        · exact .inr h
    · rw [if_neg hx, ih]
      simp only [List.mem_append, List.mem_singleton]
      tauto

theorem dictKeys_go_nodup (f : α → String) (l : List α) :
    ∀ acc : List String, acc.Nodup →
      (l.foldl (fun acc x => if acc.contains (f x) then acc else acc ++ [f x]) acc).Nodup := by
  induction l with
  | nil => intro acc h; simpa using h
  | cons x xs ih =>
    intro acc h
    simp only [List.foldl_cons]
    by_cases hx : acc.contains (f x)
    · rw [if_pos hx]; exact ih _ h
    · rw [if_neg hx]
      refine ih _ ?_
      have : f x ∉ acc := by simpa using hx
      simp [List.nodup_append, h, this]

theorem dictKeys_mem (f : α → String) (l : List α) (c : String) :
    c ∈ dictKeys f l ↔ c ∈ l.map f := by
  rw [dictKeys, dictKeys_go_mem]
  simp

theorem dictKeys_nodup (f : α → String) (l : List α) : (dictKeys f l).Nodup :=
  dictKeys_go_nodup f l [] (by simp)

/-- Grouping a list by a key and concatenating the groups over any
duplicate-free, complete key list is a permutation of the list. -/
theorem filter_partition_perm (f : α → String) :
    ∀ (ks : List String), ks.Nodup → ∀ l : List α, (∀ x ∈ l, f x ∈ ks) →
      List.Perm ((ks.map (fun k => l.filter (fun x => f x == k))).flatten) l := by
  intro ks
  induction ks with
  | nil =>
    intro _ l hc
    have : l = [] := by
      cases l with
      | nil => rfl
      | cons y ys => exact absurd (hc y (by simp)) (by simp)
    subst this
    simp
  | cons k ks ih =>
    intro hnd l hc
    have hk : k ∉ ks := (List.nodup_cons.mp hnd).1
    have hnd' : ks.Nodup := (List.nodup_cons.mp hnd).2
    simp only [List.map_cons, List.flatten_cons]
    have hmapeq :
        ks.map (fun k' => l.filter (fun x => f x == k')) =
          ks.map (fun k' => (l.filter (fun x => !(f x == k))).filter (fun x => f x == k')) := by
      refine List.map_congr_left (fun k' hk' => ?_)
      have hkk : k' ≠ k := fun e => hk (e ▸ hk')
      rw [List.filter_filter]
      refine List.filter_congr (fun x _ => ?_)
      by_cases hfx : f x = k'
      · simp [hfx, hkk]
      · simp [hfx]
    rw [hmapeq]
    have hc' : ∀ x ∈ l.filter (fun x => !(f x == k)), f x ∈ ks := by
      intro x hx
      have hxl := List.mem_filter.mp hx
      have : f x ≠ k := by simpa using hxl.2
      rcases List.mem_cons.mp (hc x hxl.1) with h | h
      · exact absurd h this
      · exact h
    have hperm := ih hnd' (l.filter (fun x => !(f x == k))) hc'
    exact (List.Perm.append_left _ hperm).trans (List.filter_append_perm _ l)

/-- Inversion of `ipProcessLine`: the shape of any line that produces a
record, and the record's fields. -/
theorem ipProcessLine_inv {line : String} {pkg : IPPackage}
    (h : ipProcessLine line = .ok (some pkg)) :
    (strContains line "allocated" || strContains line "assigned") = true ∧
    (pySplit (pyStrip line) '|').length ≥ 5 ∧
    pkg.country = (pySplit (pyStrip line) '|').getD 1 "" ∧
    pkg.ip = (pySplit (pyStrip line) '|').getD 3 "" ∧
    pkg.version = (pySplit (pyStrip line) '|').getD 2 "" ∧
    pyIsDigit ((pySplit (pyStrip line) '|').getD 4 "") = true ∧
    ((pkg.version = "ipv4" ∧
      ∃ p : Int,
        ipv4PrefixLength (pyIntOfDigits ((pySplit (pyStrip line) '|').getD 4 "")) = .ok p ∧
        pkg.prefix_length = toString p) ∨
     (pkg.version = "ipv6" ∧
      pkg.prefix_length = (pySplit (pyStrip line) '|').getD 4 "")) := by
  unfold ipProcessLine at h
  split at h
  case isFalse h1 => exact absurd h (by simp)
  case isTrue h1 =>
  simp only at h
  split at h
  case isFalse h2 => exact absurd h (by simp)
  case isTrue h2 =>
  split at h
  case isTrue h3 =>
    rw [Bool.and_eq_true, beq_iff_eq] at h3
    split at h
    case h_1 => exact absurd h (by simp)
    case h_2 p hp =>
      injection h with h
      injection h with h
      subst h
      refine ⟨h1, h2, rfl, rfl, rfl, h3.2, .inl ⟨h3.1, p, hp, rfl⟩⟩
  case isFalse h3 =>
  split at h
  case isTrue h4 =>
    rw [Bool.and_eq_true, beq_iff_eq] at h4
    injection h with h
    injection h with h
    subst h
    exact ⟨h1, h2, rfl, rfl, rfl, h4.2, .inr ⟨h4.1, rfl⟩⟩
  case isFalse h4 => exact absurd h (by simp)

/-! ## Claim theorems -/

/-- C1: for every accepted IP-block line, when the family is IPv4 and
the `value` field is a power of two `2^k` with `k ≤ 32` the record's
prefix length is exactly `32 - k` (e.g. `value=256` gives `24`), and
when the family is IPv6 the prefix length is the `value` field
unchanged. -/
theorem C1_prefix_derivation {line : String} {pkg : IPPackage}
    (h : ipProcessLine line = .ok (some pkg)) :
    (pkg.version = "ipv4" →
      ∀ k : Nat, k ≤ 32 →
        pyIntOfDigits ((pySplit (pyStrip line) '|').getD 4 "") = 2 ^ k →
        pkg.prefix_length = toString (32 - k)) ∧
    (pkg.version = "ipv6" →
      pkg.prefix_length = (pySplit (pyStrip line) '|').getD 4 "") := by
  obtain ⟨-, -, -, -, -, -, hcase⟩ := ipProcessLine_inv h
  constructor
  · intro h4 k hk hval
    rcases hcase with ⟨-, p, hp, hps⟩ | ⟨h6, -⟩
    · rw [hval, ipv4PrefixLength_pow] at hp
      injection hp with hp
      rw [hps, ← hp]
      have hcast : (32 : Int) - (k : Int) = ((32 - k : Nat) : Int) := by omega
      rw [hcast, intToString_ofNat]
    · rw [h4] at h6
      exact absurd h6 (by decide)
  · intro h6
    rcases hcase with ⟨h4, -⟩ | ⟨-, hpl⟩
    · rw [h6] at h4
      exact absurd h4 (by decide)
    · exact hpl

/-- Witness for C1: the spec's own example line
`apnic|JP|ipv4|103.0.0.0|256|20120101|allocated` yields prefix length
`24 = 32 - 8`. -/
theorem C1_prefix_derivation_witness :
    ipProcessLine "apnic|JP|ipv4|103.0.0.0|256|20120101|allocated" =
      .ok (some ⟨"JP", "103.0.0.0", "24", "ipv4"⟩) ∧
    (⟨"JP", "103.0.0.0", "24", "ipv4"⟩ : IPPackage).prefix_length = toString (32 - 8) :=
  ⟨by decide,
   (C1_prefix_derivation
      (by decide :
        ipProcessLine "apnic|JP|ipv4|103.0.0.0|256|20120101|allocated" =
          .ok (some ⟨"JP", "103.0.0.0", "24", "ipv4"⟩))).1
     (by decide) 8 (by decide) (by decide)⟩

/-- C3 counterexample: `build.py` gates on the *substring*
`'allocated' in line` / `'assigned' in line`, not on the status field:
this line's status field is `reserved`, yet a record is produced
because the registry field contains `assigned`. -/
theorem C3_counterexample :
    ipProcessLine "assigned-x|JP|ipv4|1.0.0.0|256|20120101|reserved" =
      .ok (some ⟨"JP", "1.0.0.0", "24", "ipv4"⟩) ∧
    (pySplit (pyStrip "assigned-x|JP|ipv4|1.0.0.0|256|20120101|reserved") '|').getD 6 "" =
      "reserved" := by
  decide

/-- C3 amended: the ASN pipeline does require the status *field* to be
exactly `allocated` or `assigned`; the IP-block pipeline only requires
the tokens `allocated`/`assigned` to occur as substrings anywhere in
the line (a line containing neither produces no record, but the status
field itself is never inspected). -/
theorem C3_status_gate :
    (∀ (line : String) (e : ASNEntry), asnProcessLine line = some e →
      e.status = "allocated" ∨ e.status = "assigned") ∧
    (∀ line : String, strContains line "allocated" = false →
      strContains line "assigned" = false → ipProcessLine line = .ok none) := by
  constructor
  · intro line e h
    unfold asnProcessLine at h
    split at h
    case isFalse => exact absurd h (by simp)
    case isTrue =>
    simp only at h
    split at h
    case isFalse => exact absurd h (by simp)
    case isTrue =>
    split at h
    case isFalse => exact absurd h (by simp)
    case isTrue hcond =>
      injection h with h
      subst h
      simp only [Bool.and_eq_true, Bool.or_eq_true, beq_iff_eq] at hcond
      exact hcond.2
  · intro line h1 h2
    unfold ipProcessLine
    simp [h1, h2]

/-- Witness for C3 amended: an ASN record built from a real line has an
admissible status, and an IP-block line containing neither token yields
no record. -/
theorem C3_status_gate_witness :
    ((⟨"apnic", "JP", "4608", "1", "20020801", "allocated"⟩ : ASNEntry).status = "allocated" ∨
     (⟨"apnic", "JP", "4608", "1", "20020801", "allocated"⟩ : ASNEntry).status = "assigned") ∧
    ipProcessLine "registry|XX|ipv4|1.2.3.4|256|20240101|reserved" = .ok none :=
  ⟨C3_status_gate.1 "apnic|JP|asn|4608|1|20020801|allocated" _ (by decide),
   C3_status_gate.2 "registry|XX|ipv4|1.2.3.4|256|20240101|reserved" (by decide) (by decide)⟩

/-- C7 counterexample: `build.py` has no comment handling — a line
beginning with `#` still produces a record when it passes the substring
and field gating. -/
theorem C7_counterexample :
    startsWithHash "#x|JP|ipv4|1.0.0.0|256|20120101|allocated" = true ∧
    ipProcessLine "#x|JP|ipv4|1.0.0.0|256|20120101|allocated" =
      .ok (some ⟨"JP", "1.0.0.0", "24", "ipv4"⟩) := by
  decide

/-- C7 amended: only the ASN pipeline treats a leading `#` as a
comment: a line starting with `#` never produces an ASN record. -/
theorem C7_hash_comment (line : String) (h : startsWithHash line = true) :
    asnProcessLine line = none := by
  unfold asnProcessLine
  simp [h]

/-- Witness for C7 amended at a concrete commented line. -/
theorem C7_hash_comment_witness :
    startsWithHash "#apnic|JP|asn|4608|1|20020801|allocated" = true ∧
    asnProcessLine "#apnic|JP|asn|4608|1|20020801|allocated" = none :=
  ⟨by decide, C7_hash_comment "#apnic|JP|asn|4608|1|20020801|allocated" (by decide)⟩

/-- C10: the exported countries list is exactly the distinct
`country` values of the record set, sorted by code point, each once,
with no exclusion — in particular `'*'` and `''` appear whenever some
record carries them (this is the membership equivalence below). -/
theorem C10_countries_list (data : List IPPackage) :
    (exportCountriesList data).Pairwise (fun a b => strLe a b = true) ∧
    (exportCountriesList data).Nodup ∧
    ∀ c : String, c ∈ exportCountriesList data ↔ c ∈ data.map (·.country) := by
  refine ⟨?_, ?_, ?_⟩
  · exact List.sorted_mergeSort
      (fun a b c (hab : strLe a b = true) (hbc : strLe b c = true) => strLe_trans hab hbc)
      (fun a b => by rcases strLe_total a b with h | h <;> simp [h])
      ((data.map (·.country)).dedup)
  · exact ((List.mergeSort_perm _ _).nodup_iff).mpr (List.nodup_dedup _)
  · intro c
    rw [exportCountriesList, List.mem_mergeSort, List.mem_dedup]

/-- C2: the canonical sort yields non-decreasing sort keys
(country code-point order, then version with `ipv4 < ipv6`, then the
numeric address value), the per-country/per-family partitions of the
sorted sequence preserve that order, and a successful ASN sort yields
records non-decreasing in the numeric value of the ASN field. -/
theorem C2_canonical_order :
    (∀ l : List IPPackage,
      (sortIpData l).Pairwise (fun a b => ipKeyLE (ipSortKey a) (ipSortKey b) = true)) ∧
    (∀ (l : List IPPackage) (c v : String),
      (ipCountryView (sortIpData l) c v).Pairwise
        (fun a b => ipKeyLE (ipSortKey a) (ipSortKey b) = true) ∧
      (ipFamilyView (sortIpData l) v).Pairwise
        (fun a b => ipKeyLE (ipSortKey a) (ipSortKey b) = true)) ∧
    (∀ (l r : List ASNEntry), sortAsnData l = .ok r →
      r.Pairwise (fun a b => asnKeyVal a ≤ asnKeyVal b)) := by
  have hsorted : ∀ l : List IPPackage,
      (sortIpData l).Pairwise (fun a b => ipKeyLE (ipSortKey a) (ipSortKey b) = true) := by
    intro l
    exact List.sorted_mergeSort
      (fun a b c (hab : ipKeyLE (ipSortKey a) (ipSortKey b) = true)
          (hbc : ipKeyLE (ipSortKey b) (ipSortKey c) = true) => ipKeyLE_trans hab hbc)
      (fun a b => by
        rcases ipKeyLE_total (ipSortKey a) (ipSortKey b) with h | h <;> simp [h]) l
  refine ⟨hsorted, ?_, ?_⟩
  · exact fun l c v => ⟨(hsorted l).filter _, (hsorted l).filter _⟩
  · intro l r h
    unfold sortAsnData at h
    split at h
    case isFalse => exact absurd h (by simp)
    case isTrue =>
      injection h with h
      subst h
      refine (List.sorted_mergeSort
        (fun a b c (hab : (asnKeyVal a ≤ asnKeyVal b : Bool) = true)
            (hbc : (asnKeyVal b ≤ asnKeyVal c : Bool) = true) => by
          simp only [decide_eq_true_eq] at hab hbc ⊢; omega)
        (fun a b => by
          simp only [Bool.or_eq_true, decide_eq_true_eq]; omega) l).imp ?_
      intro a b hab
      simpa using hab

/-- Witness for C2: a singleton ASN list sorts successfully and the
result has non-decreasing keys. -/
theorem C2_canonical_order_witness :
    sortAsnData [(⟨"apnic", "JP", "4608", "1", "20020801", "allocated"⟩ : ASNEntry)] =
      .ok [⟨"apnic", "JP", "4608", "1", "20020801", "allocated"⟩] ∧
    ([(⟨"apnic", "JP", "4608", "1", "20020801", "allocated"⟩ : ASNEntry)]).Pairwise
      (fun a b => asnKeyVal a ≤ asnKeyVal b) := by
  have hok : sortAsnData [(⟨"apnic", "JP", "4608", "1", "20020801", "allocated"⟩ : ASNEntry)] =
      .ok [⟨"apnic", "JP", "4608", "1", "20020801", "allocated"⟩] := by
    unfold sortAsnData
    rw [if_pos (by decide)]
    simp
  exact ⟨hok, C2_canonical_order.2.2 _ _ hok⟩

/-- C4 counterexample: `build.py`'s per-country export applies no
wildcard filter — a record with country `'*'` produces the per-country
artifact `('*', 'ipv4')` containing the record.  (The spec's own
end-to-end example `ripencc|*|ipv4|80.0.0.0|65536|...` is the source of
this record: value 65536 gives prefix length 16.) -/
theorem C4_counterexample :
    ipCountryArtifacts [⟨"*", "80.0.0.0", "16", "ipv4"⟩] = [("*", "ipv4")] ∧
    ipCountryView [⟨"*", "80.0.0.0", "16", "ipv4"⟩] "*" "ipv4" =
      [⟨"*", "80.0.0.0", "16", "ipv4"⟩] := by
  decide

/-- C4 amended: wildcard/empty-country records stay in the global,
per-family, and (ASN) per-registry views; the ASN per-country export
excludes the keys `''` and `'*'`, but the IP-block per-country export
applies no exclusion: every record, wildcard included, appears in the
per-country bucket of its own country key. -/
theorem C4_wildcard_partition :
    (∀ (l : List ASNEntry) (c : String), c ∈ asnCountryKeys l → c ≠ "" ∧ c ≠ "*") ∧
    (∀ (l : List ASNEntry) (e : ASNEntry), e ∈ l →
      ∀ g, sortAsnData l = .ok g → e ∈ g) ∧
    (∀ (l : List ASNEntry) (e : ASNEntry), e ∈ l →
      ∀ g, asnRegistryView l e.registry = .ok g → e ∈ g) ∧
    (∀ (l : List IPPackage) (p : IPPackage), p ∈ l →
      p ∈ sortIpData l ∧ p ∈ ipFamilyView (sortIpData l) p.version ∧
      p ∈ ipCountryView (sortIpData l) p.country p.version) := by
  have hmem : ∀ (l : List ASNEntry) (e : ASNEntry), e ∈ l →
      ∀ g, sortAsnData l = .ok g → e ∈ g := by
    intro l e he g hg
    unfold sortAsnData at hg
    split at hg
    case isFalse => exact absurd hg (by simp)
    case isTrue =>
      injection hg with hg
      subst hg
      simpa [List.mem_mergeSort] using he
  refine ⟨?_, hmem, ?_, ?_⟩
  · intro l c hc
    have := List.mem_filter.mp hc
    simpa using this.2
  · intro l e he g hg
    refine hmem _ e ?_ g hg
    simp [List.mem_filter, he]
  · intro l p hp
    have hps : p ∈ sortIpData l := by simpa [sortIpData, List.mem_mergeSort] using hp
    exact ⟨hps, by simp [ipFamilyView, List.mem_filter, hps],
      by simp [ipCountryView, List.mem_filter, hps]⟩

/-- Witness for C4 amended: a non-wildcard ASN country key passes the
filter, and a wildcard IP record is retained in its own per-country
bucket. -/
theorem C4_wildcard_partition_witness :
    (("JP" : String) ≠ "" ∧ ("JP" : String) ≠ "*") ∧
    (⟨"*", "80.0.0.0", "16", "ipv4"⟩ : IPPackage) ∈
      sortIpData [⟨"*", "80.0.0.0", "16", "ipv4"⟩] :=
  ⟨C4_wildcard_partition.1 [⟨"apnic", "JP", "4608", "1", "20020801", "allocated"⟩] "JP"
      (by decide),
   (C4_wildcard_partition.2.2.2 [⟨"*", "80.0.0.0", "16", "ipv4"⟩]
      ⟨"*", "80.0.0.0", "16", "ipv4"⟩ (by decide)).1⟩

/-- C5 counterexample: an accepted IPv4 line whose value field is `0`
makes `math.log2` raise `ValueError` out of `process_region_data`, so
the well-formed line after it produces nothing — per-record processing
is *not* exception-free. -/
theorem C5_counterexample :
    ipProcessLines ["apnic|JP|ipv4|1.0.0.0|0|20120101|allocated",
                    "apnic|JP|ipv4|1.1.0.0|256|20120101|allocated"] = .error () := by
  decide

/-- C5 amended: lines rejected by the gating (fewer than 5 fields,
wrong type token, non-digit value, missing tokens) are silently
skipped and do not affect other lines — in particular the spec's
resilience example (one well-formed line plus one 3-field line) yields
exactly one record; but an accepted IPv4 line with value `0` raises
out of the whole source (see the counterexample). -/
theorem C5_malformed_resilience :
    (∀ line : String, (pySplit (pyStrip line) '|').length < 5 →
      ipProcessLine line = .ok none) ∧
    ipProcessLines ["apnic|JP|ipv4|103.0.0.0|256|20120101|allocated", "apnic|JP|ipv4"] =
      .ok [⟨"JP", "103.0.0.0", "24", "ipv4"⟩] := by
  constructor
  · intro line hlen
    unfold ipProcessLine
    split
    case isFalse => rfl
    case isTrue =>
      simp only
      rw [if_neg (by omega)]
  · decide

/-- Witness for C5 amended: the 3-field line is skipped. -/
theorem C5_malformed_resilience_witness :
    ipProcessLine "apnic|JP|ipv4" = .ok none ∧
    ipProcessLines ["apnic|JP|ipv4|103.0.0.0|256|20120101|allocated", "apnic|JP|ipv4"] =
      .ok [⟨"JP", "103.0.0.0", "24", "ipv4"⟩] :=
  ⟨C5_malformed_resilience.1 "apnic|JP|ipv4" (by decide), C5_malformed_resilience.2⟩

/-- C6 counterexample: construction validates nothing — an IPv6 line
with value `500` is admitted with `prefixLength = 500 > 128`, and an
IPv4 line whose address is not syntactically valid is admitted anyway
(the address is only ever parsed later, at sort time, with a
fallback). -/
theorem C6_counterexample :
    ipProcessLine "apnic|JP|ipv6|2001:db8::|500|20120101|allocated" =
      .ok (some ⟨"JP", "2001:db8::", "500", "ipv6"⟩) ∧
    128 < pyIntOfDigits (⟨"JP", "2001:db8::", "500", "ipv6"⟩ : IPPackage).prefix_length ∧
    ipProcessLine "apnic|JP|ipv4|notanip|256|20120101|allocated" =
      .ok (some ⟨"JP", "notanip", "24", "ipv4"⟩) ∧
    parseIPv4 "notanip" = none := by
  decide

/-- C6 amended: the only invariant the code maintains is arithmetic:
every computed IPv4 prefix length is at most 32, and for a power-of-two
value `2^k` with `k ≤ 32` it lies in `[0, 32]`; IPv6 prefix lengths are
the raw value field with no range check, and addresses are not
validated at construction. -/
theorem C6_prefix_invariant :
    (∀ (v : Nat) (p : Int), ipv4PrefixLength v = .ok p → p ≤ 32) ∧
    (∀ k : Nat, k ≤ 32 →
      ipv4PrefixLength (2 ^ k) = .ok (32 - (k : Int)) ∧ 0 ≤ (32 : Int) - (k : Int)) ∧
    (∀ {line : String} {pkg : IPPackage}, ipProcessLine line = .ok (some pkg) →
      pkg.version = "ipv6" →
      pkg.prefix_length = (pySplit (pyStrip line) '|').getD 4 "") := by
  refine ⟨ipv4PrefixLength_le, fun k hk => ⟨ipv4PrefixLength_pow k, by omega⟩, ?_⟩
  intro line pkg h h6
  obtain ⟨-, -, -, -, -, -, hcase⟩ := ipProcessLine_inv h
  rcases hcase with ⟨h4, -⟩ | ⟨-, hpl⟩
  · rw [h6] at h4
    exact absurd h4 (by decide)
  · exact hpl

/-- Witness for C6 amended at `value = 256 = 2^8` and at a concrete
IPv6 record. -/
theorem C6_prefix_invariant_witness :
    ((24 : Int) ≤ 32) ∧
    (ipv4PrefixLength (2 ^ 8) = .ok (32 - (8 : Int)) ∧ 0 ≤ (32 : Int) - (8 : Int)) ∧
    (⟨"JP", "2001:db8::", "500", "ipv6"⟩ : IPPackage).prefix_length =
      (pySplit (pyStrip "apnic|JP|ipv6|2001:db8::|500|20120101|allocated") '|').getD 4 "" :=
  ⟨C6_prefix_invariant.1 256 24 (by decide),
   C6_prefix_invariant.2.1 8 (by decide),
   C6_prefix_invariant.2.2
     (by decide :
       ipProcessLine "apnic|JP|ipv6|2001:db8::|500|20120101|allocated" =
         .ok (some ⟨"JP", "2001:db8::", "500", "ipv6"⟩)) (by decide)⟩

/-- Pointwise-permutation congruence of flattening a mapped list. -/
theorem flatten_map_perm (ks : List String) (f g : String → List α)
    (h : ∀ k ∈ ks, List.Perm (f k) (g k)) :
    List.Perm ((ks.map f).flatten) ((ks.map g).flatten) := by
  induction ks with
  | nil => simp
  | cons k ks ih =>
    simp only [List.map_cons, List.flatten_cons]
    exact (h k (by simp)).append (ih (fun k' hk' => h k' (by simp [hk'])))

/-- C8 counterexample: `IPPackage` does not carry the registry — two
lines differing only in the registry field produce the *same* record,
so no per-registry partition is possible in the IP-block pipeline (and
`build.py` has none). -/
theorem C8_counterexample :
    ipProcessLine "apnic|JP|ipv4|1.0.0.0|256|20120101|allocated" =
      .ok (some ⟨"JP", "1.0.0.0", "24", "ipv4"⟩) ∧
    ipProcessLine "ripencc|JP|ipv4|1.0.0.0|256|20120101|allocated" =
      .ok (some ⟨"JP", "1.0.0.0", "24", "ipv4"⟩) ∧
    (pySplit (pyStrip "apnic|JP|ipv4|1.0.0.0|256|20120101|allocated") '|').getD 0 "" ≠
      (pySplit (pyStrip "ripencc|JP|ipv4|1.0.0.0|256|20120101|allocated") '|').getD 0 "" := by
  decide

/-- C8 amended: in the ASN pipeline every record carries its registry
tag and the per-registry export partitions the record set with no
exclusions: whenever the global sort succeeds, each per-registry view
succeeds and the concatenation of all per-registry views is a
permutation of the global view. -/
theorem C8_registry_partition (l g : List ASNEntry) (hg : sortAsnData l = .ok g) :
    ∃ views : List (List ASNEntry),
      (asnRegistryKeys l).map (fun r => asnRegistryView l r) = views.map Except.ok ∧
      List.Perm views.flatten g := by
  have hall : l.all (fun e => (asnKeyInt e).isSome) = true := by
    unfold sortAsnData at hg
    split at hg
    case isTrue hcond => exact hcond
    case isFalse => exact absurd hg (by simp)
  have hgeq : g = l.mergeSort (fun a b => asnKeyVal a ≤ asnKeyVal b) := by
    unfold sortAsnData at hg
    rw [if_pos hall] at hg
    injection hg with hg
    exact hg.symm
  refine ⟨(asnRegistryKeys l).map (fun r =>
      (l.filter (fun e => e.registry == r)).mergeSort
        (fun a b => asnKeyVal a ≤ asnKeyVal b)), ?_, ?_⟩
  · rw [List.map_map]
    refine List.map_congr_left (fun r _ => ?_)
    have hfil : (l.filter (fun e => e.registry == r)).all
        (fun e => (asnKeyInt e).isSome) = true := by
      rw [List.all_eq_true] at hall ⊢
      exact fun e he => hall e (List.mem_filter.mp he).1
    show asnRegistryView l r = _
    unfold asnRegistryView sortAsnData
    rw [if_pos hfil]
    rfl
  · refine (flatten_map_perm _ _ (fun r => l.filter (fun e => e.registry == r))
      (fun r _ => List.mergeSort_perm _ _)).trans ?_
    refine (filter_partition_perm (fun e => e.registry) (asnRegistryKeys l)
      (dictKeys_nodup _ _) l (fun x hx => ?_)).trans ?_
    · exact (dictKeys_mem _ _ _).mpr (List.mem_map_of_mem _ hx)
    · exact hgeq ▸ (List.mergeSort_perm l _).symm

/-- Witness for C8 amended on a two-registry list. -/
theorem C8_registry_partition_witness :
    sortAsnData [(⟨"apnic", "JP", "4608", "1", "20020801", "allocated"⟩ : ASNEntry)] =
      .ok [⟨"apnic", "JP", "4608", "1", "20020801", "allocated"⟩] ∧
    ∃ views : List (List ASNEntry),
      (asnRegistryKeys [(⟨"apnic", "JP", "4608", "1", "20020801", "allocated"⟩ : ASNEntry)]).map
        (fun r => asnRegistryView
          [(⟨"apnic", "JP", "4608", "1", "20020801", "allocated"⟩ : ASNEntry)] r) =
        views.map Except.ok ∧
      List.Perm views.flatten
        [⟨"apnic", "JP", "4608", "1", "20020801", "allocated"⟩] := by
  have hok : sortAsnData [(⟨"apnic", "JP", "4608", "1", "20020801", "allocated"⟩ : ASNEntry)] =
      .ok [⟨"apnic", "JP", "4608", "1", "20020801", "allocated"⟩] := by
    unfold sortAsnData
    rw [if_pos (by decide)]
    simp
  exact ⟨hok, C8_registry_partition _ _ hok⟩

/-- C9 counterexample: `build.py` has no emptiness check — an empty
combined record set still completes the run and writes every artifact
(empty global file, empty countries list, and so on) instead of
aborting. -/
theorem C9_counterexample :
    ipMain [] = .completed ⟨[], [], [], [], []⟩ := by
  simp [ipMain, sortIpData, exportCountriesList, ipFamilyView, ipCountryArtifacts, dictKeys]

/-- C9 amended: only the ASN pipeline aborts on an empty combined
record set (with the user-visible message, writing nothing); a
non-empty set proceeds to the exports on the full data.  The IP-block
pipeline always completes (see the counterexample). -/
theorem C9_empty_abort :
    asnMain [] = .aborted "No ASN data collected. Exiting." ∧
    ∀ l : List ASNEntry, l ≠ [] →
      asnMain l = .completed ⟨sortAsnData l, asnCountryKeys l, asnRegistryKeys l⟩ := by
  refine ⟨rfl, fun l hl => ?_⟩
  unfold asnMain
  rw [if_neg (by simpa using hl)]

/-- Witness for C9 amended: a singleton record set proceeds to the
exports. -/
theorem C9_empty_abort_witness :
    asnMain [(⟨"apnic", "JP", "4608", "1", "20020801", "allocated"⟩ : ASNEntry)] =
      .completed
        ⟨sortAsnData [⟨"apnic", "JP", "4608", "1", "20020801", "allocated"⟩],
         asnCountryKeys [⟨"apnic", "JP", "4608", "1", "20020801", "allocated"⟩],
         asnRegistryKeys [⟨"apnic", "JP", "4608", "1", "20020801", "allocated"⟩]⟩ :=
  C9_empty_abort.2 _ (by decide)
